import Mathlib

set_option maxHeartbeats 1000000
set_option linter.unusedVariables false

/-!
Shallow embedding of the harestorage object-storage library: the Storage
contract with its two realizations, LocalStorage (a rooted directory tree on
a local filesystem) and GCSStorage (a bucket of keyed objects behind a cloud
client). Paths are modelled as slash-separated segment lists, the local
filesystem as an association list from paths to nodes, and the cloud bucket
as an association list from keys to objects. Byte streams are finite byte
lists together with a flag saying whether the stream ends in a read error.
-/

/-- A byte sequence (Go byte slice / file contents). -/
abbrev Bytes := List Nat

/-- Model of an io.Reader handed to Put: it yields `data` and then either
reports clean EOF (`readErr = false`) or a read error (`readErr = true`). -/
structure ByteReader where
  data : Bytes
  readErr : Bool
deriving DecidableEq

/-- PutOptions holds optional settings for saving an object. -/
structure PutOptions where
  ContentType : String
  Metadata : List (String × String)
deriving DecidableEq

/-- ObjectInfo holds detailed information about an object in the storage.
Timestamps are modelled as plain naturals (the code never computes with
them; the model fixes them at 0) and the metadata map as an association
list. -/
structure ObjectInfo where
  Name : String
  Size : Nat
  UpdatedAt : Nat
  Metadata : List (String × String)
deriving DecidableEq

/-- Splits a character list at every slash; separator runs give empty
pieces, which the caller filters out. -/
def segSplit : List Char → List (List Char)
  | [] => [[]]
  | c :: cs =>
    if c = '/' then [] :: segSplit cs
    else
      match segSplit cs with
      | [] => [[c]]
      | h :: t => (c :: h) :: t

/-- Path segments of a string: split on slash, dropping empty segments, as
Go path cleaning collapses separator runs and edge separators. -/
def pathSegs (s : String) : List String :=
  ((segSplit s.data).map (fun cs => String.mk cs)).filter (fun t => t ≠ "")

/-- Lexical cleaning of dot and dot-dot segments, as Go path.Clean and
filepath.Clean perform on a rooted path (a dot-dot at the root is dropped). -/
def cleanSegsAux : List String → List String → List String
  | acc, [] => acc.reverse
  | acc, seg :: rest =>
    if seg = "." then cleanSegsAux acc rest
    else if seg = ".." then
      match acc with
      | [] => cleanSegsAux [] rest
      | _ :: t => cleanSegsAux t rest
    else cleanSegsAux (seg :: acc) rest

def cleanSegs (l : List String) : List String := cleanSegsAux [] l

/-- Joined path as a segment list: Go filepath.Join / path.Join restricted
to the slash-separated representation used throughout the model. -/
def joinSegs (elems : List String) : List String :=
  cleanSegs (elems.map pathSegs).join

/-- Go filepath.Join / path.Join of the given elements rendered as a string
with slash separators; used for ObjectInfo names and error messages. -/
def goPathJoin (elems : List String) : String :=
  String.intercalate "/" (joinSegs elems)

/-- A node of the modelled filesystem: a regular file with its contents, or
a directory. -/
inductive FsNode where
  | file (data : Bytes)
  | dir
deriving DecidableEq

/-- An absolute filesystem path, as segments. -/
abbrev FsPath := List String

/-- The filesystem: association list from paths to nodes (first match wins). -/
abbrev Fs := List (FsPath × FsNode)

/-- Errors of the modelled OS calls, fine enough to express os.IsNotExist. -/
inductive FsErr where
  | notExist
  | notDir
  | isDir
  | notEmpty
  | invalid
deriving DecidableEq

def fsFind : Fs → FsPath → Option FsNode
  | [], _ => none
  | (q, m) :: rest, p => if q = p then some m else fsFind rest p

def fsSet : Fs → FsPath → FsNode → Fs
  | [], p, n => [(p, n)]
  | (q, m) :: rest, p, n => if q = p then (p, n) :: rest else (q, m) :: fsSet rest p n

def fsErase : Fs → FsPath → Fs
  | [], _ => []
  | (q, m) :: rest, p => if q = p then fsErase rest p else (q, m) :: fsErase rest p

/-- Whether the first path is a (not necessarily proper) ancestor of the
second, segment-wise. -/
def isUnder : FsPath → FsPath → Bool
  | [], _ => true
  | _ :: _, [] => false
  | a :: as, b :: bs => if a = b then isUnder as bs else false

/-- Whether `p` denotes an existing directory (the filesystem root always
exists). -/
def dirExists (fs : Fs) (p : FsPath) : Bool :=
  p.isEmpty ||
    (match fsFind fs p with
      | some .dir => true
      | _ => false)

/-- os.MkdirAll worker: ensure each successive level exists as a directory,
creating missing levels; an existing file at any level aborts with ENOTDIR,
leaving the levels created so far in place. -/
def mkdirAllFrom : Fs → FsPath → List String → (Option FsErr) × Fs
  | fs, _, [] => (none, fs)
  | fs, base, seg :: rest =>
    match fsFind fs (base ++ [seg]) with
    | some (.file _) => (some .notDir, fs)
    | some .dir => mkdirAllFrom fs (base ++ [seg]) rest
    | none => mkdirAllFrom (fsSet fs (base ++ [seg]) .dir) (base ++ [seg]) rest

/-- os.MkdirAll with mode 0755: ensure every level of `p` exists as a
directory. -/
def mkdirAll (fs : Fs) (p : FsPath) : (Option FsErr) × Fs :=
  mkdirAllFrom fs [] p

/-- os.Create: truncating create; requires the parent directory to exist and
fails when the path is an existing directory. -/
def osCreate (fs : Fs) (p : FsPath) : Except FsErr Fs :=
  match fsFind fs p with
  | some .dir => .error .isDir
  | _ =>
    if dirExists fs p.dropLast then .ok (fsSet fs p (.file []))
    else .error .notExist

/-- os.Open: returns a handle on the node at `p` (a directory can be opened;
reading it later fails), ENOENT when absent. -/
def osOpen (fs : Fs) (p : FsPath) : Except FsErr FsNode :=
  match fsFind fs p with
  | some n => .ok n
  | none => .error .notExist

/-- Reading everything from an opened handle: file contents, or EISDIR for a
directory handle. -/
def readAll : FsNode → Except FsErr Bytes
  | .file d => .ok d
  | .dir => .error .isDir

/-- Key remapping performed by a rename: keys under `src` are re-rooted at
`dst`. -/
def renameKey (src dst : FsPath) (q : FsPath) : FsPath :=
  if isUnder src q then dst ++ q.drop src.length else q

/-- os.Rename: moves the node (and, for a directory, its subtree) from `src`
to `dst`; fails when `src` is absent, when `dst` is an existing directory,
when a directory would overwrite a file, or when the parent of `dst` is
absent. An existing destination file is replaced. -/
def osRename (fs : Fs) (src dst : FsPath) : Except FsErr Fs :=
  match fsFind fs src with
  | none => .error .notExist
  | some n =>
    if src = dst then .ok fs
    else if isUnder src dst then .error .invalid
    else
      match n, fsFind fs dst with
      | _, some .dir => .error .isDir
      | .dir, some (.file _) => .error .notDir
      | _, _ =>
        if dirExists fs dst.dropLast then
          .ok ((fsErase fs dst).map (fun e => (renameKey src dst e.1, e.2)))
        else .error .notExist

/-- Whether `p` has a strictly deeper entry beneath it. -/
def hasChild (fs : Fs) (p : FsPath) : Bool :=
  fs.any (fun e => decide (e.1 ≠ p) && isUnder p e.1)

/-- os.Remove: removes a file or an empty directory; ENOENT when absent,
ENOTEMPTY for a non-empty directory. -/
def osRemove (fs : Fs) (p : FsPath) : Except FsErr Fs :=
  match fsFind fs p with
  | none => .error .notExist
  | some (.file _) => .ok (fsErase fs p)
  | some .dir =>
    if hasChild fs p then .error .notEmpty
    else .ok (fsErase fs p)

/-- os.RemoveAll: removes the subtree rooted at `p`; succeeds when nothing
is there. -/
def osRemoveAll (fs : Fs) (p : FsPath) : Fs :=
  fs.filter (fun e => !(isUnder p e.1))

/-- The result of an os.FileInfo stat: size and modification time
(timestamps fixed at 0 in the model). -/
structure FileInfo where
  size : Nat
  modTime : Nat
deriving DecidableEq

/-- A directory entry as surfaced by os.ReadDir: base name, IsDir flag and
the result of Info (none models a failed metadata read, for example a file
removed between the directory read and the stat). -/
structure RawEntry where
  name : String
  isDir : Bool
  info : Option FileInfo
deriving DecidableEq

/-- The directory entry the model produces for a node (metadata reads never
fail inside the pure model; the List loop is stated over arbitrary entries). -/
def rawOf (s : String) (n : FsNode) : RawEntry :=
  match n with
  | .file d => { name := s, isDir := false, info := some { size := d.length, modTime := 0 } }
  | .dir => { name := s, isDir := true, info := some { size := 0, modTime := 0 } }

/-- The immediate children of directory `p`. -/
def childrenOf (fs : Fs) (p : FsPath) : List RawEntry :=
  fs.filterMap (fun e =>
    if isUnder p e.1 && decide (e.1.length = p.length + 1) then
      some (rawOf (e.1.getLastD "") e.2)
    else none)

def charListLe : List Char → List Char → Bool
  | [], _ => true
  | _ :: _, [] => false
  | a :: as, b :: bs => if a = b then charListLe as bs else decide (a < b)

/-- Lexicographic comparison of file names, for the sorted order of
os.ReadDir. -/
def strLe (a b : String) : Bool := charListLe a.data b.data

def insertByName (e : RawEntry) : List RawEntry → List RawEntry
  | [] => [e]
  | x :: xs => if strLe e.name x.name then e :: x :: xs else x :: insertByName e xs

def sortByName : List RawEntry → List RawEntry
  | [] => []
  | e :: es => insertByName e (sortByName es)

/-- os.ReadDir: the entries of the directory sorted by filename; ENOENT when
the path is absent, ENOTDIR when it names a file. -/
def osReadDir (fs : Fs) (p : FsPath) : Except FsErr (List RawEntry) :=
  match fsFind fs p with
  | some .dir => .ok (sortByName (childrenOf fs p))
  | some (.file _) => .error .notDir
  | none => .error .notExist

/-- Configuration failures reported by checkRootDir / checkClientAndBucket. -/
inductive ConfigErr where
  | rootDirRequired
  | clientRequired
  | bucketNameRequired
deriving DecidableEq

/-- Failures of the cloud client calls. -/
inductive GcsErr where
  | objectNotExist
  | ioFail
deriving DecidableEq

/-- Errors returned by the storage methods. Each constructor stands for one
family of fmt.Errorf sites: `config` for the wrapped configuration check,
`argRequired f` for the f-required messages on empty arguments, `fsOp` and
`gcsOp` for wrapped backend errors (msg is the format stem, path the quoted
argument), `readerFail` for an io.Copy aborted by the source reader, and
`wrapMove` for the wrapping Move applies to its Copy and Delete steps. -/
inductive GoError where
  | config (c : ConfigErr)
  | argRequired (field : String)
  | fsOp (msg : String) (path : String) (cause : FsErr)
  | gcsOp (msg : String) (path : String) (cause : GcsErr)
  | readerFail (msg : String) (path : String)
  | wrapMove (msg : String) (cause : GoError)
deriving DecidableEq

/-- LocalStorage implements the Storage interface for the local filesystem. -/
structure LocalStorage where
  rootDir : String
  name : String
deriving DecidableEq

def LocalStorage.checkRootDir (s : LocalStorage) : Option ConfigErr :=
  if s.rootDir = "" then some .rootDirRequired else none

/-- Name returns the name (identifier) of this storage. -/
def LocalStorage.Name (s : LocalStorage) : String := s.name

/-- PathJoin joins multiple path elements according to the storage format. -/
def LocalStorage.PathJoin (s : LocalStorage) (elems : List String) : String :=
  goPathJoin elems

/-- Get returns a handle for reading the object with the given name. -/
def LocalStorage.Get (s : LocalStorage) (nm : String) (fs : Fs) : Except GoError FsNode :=
  match s.checkRootDir with
  | some c => .error (.config c)
  | none =>
    if nm = "" then .error (.argRequired "name")
    else
      match osOpen fs (joinSegs [s.rootDir, nm]) with
      | .error e => .error (.fsOp "failed to open file" (goPathJoin [s.rootDir, nm]) e)
      | .ok n => .ok n

/-- Put saves data to the storage with the given name. The returned pair
mirrors the Go (int64, error) result; the filesystem after the call is
returned alongside. On a reader error the file is left holding the bytes
copied before the failure. -/
def LocalStorage.Put (s : LocalStorage) (nm : String) (r : ByteReader)
    (opts : Option PutOptions) (fs : Fs) : (Nat × Option GoError) × Fs :=
  match s.checkRootDir with
  | some c => ((0, some (.config c)), fs)
  | none =>
    if nm = "" then ((0, some (.argRequired "name")), fs)
    else
      match mkdirAll fs (joinSegs [s.rootDir, nm]).dropLast with
      | (some e, fs₁) =>
          ((0, some (.fsOp "failed to create directory" (goPathJoin [s.rootDir, nm]) e)), fs₁)
      | (none, fs₁) =>
        match osCreate fs₁ (joinSegs [s.rootDir, nm]) with
        | .error e =>
            ((0, some (.fsOp "failed to create file" (goPathJoin [s.rootDir, nm]) e)), fs₁)
        | .ok fs₂ =>
          if r.readErr then
            ((0, some (.readerFail "failed to write file" (goPathJoin [s.rootDir, nm]))),
              fsSet fs₂ (joinSegs [s.rootDir, nm]) (.file r.data))
          else
            ((r.data.length, none), fsSet fs₂ (joinSegs [s.rootDir, nm]) (.file r.data))

/-- The body of the List loop over directory entries: directories and
entries whose Info call failed are skipped, the rest become descriptors. -/
def localListLoop (pre : String) : List RawEntry → List ObjectInfo
  | [] => []
  | f :: rest =>
    if f.isDir then localListLoop pre rest
    else
      match f.info with
      | none => localListLoop pre rest
      | some i =>
        { Name := goPathJoin [pre, f.name], Size := i.size,
          UpdatedAt := i.modTime, Metadata := [] } :: localListLoop pre rest

/-- List returns a list of objects matching the given prefix; a missing
prefix directory yields an empty list, not an error. -/
def LocalStorage.List (s : LocalStorage) (pre : String) (fs : Fs) :
    Except GoError (List ObjectInfo) :=
  match s.checkRootDir with
  | some c => .error (.config c)
  | none =>
    if pre = "" then .error (.argRequired "prefix")
    else
      match osReadDir fs (joinSegs [s.rootDir, pre]) with
      | .error .notExist => .ok []
      | .error e => .error (.fsOp "failed to list files" (goPathJoin [s.rootDir, pre]) e)
      | .ok files => .ok (localListLoop pre files)

/-- Copy copies an object from the source path to the destination path. The
source handle is opened first and snapshots the source contents; copying
from a directory handle fails after the destination file was created. -/
def LocalStorage.Copy (s : LocalStorage) (src dst : String) (fs : Fs) :
    (Option GoError) × Fs :=
  match s.checkRootDir with
  | some c => (some (.config c), fs)
  | none =>
    if src = "" then (some (.argRequired "src"), fs)
    else if dst = "" then (some (.argRequired "dst"), fs)
    else
      match osOpen fs (joinSegs [s.rootDir, src]) with
      | .error e =>
          (some (.fsOp "failed to open src file" (goPathJoin [s.rootDir, src]) e), fs)
      | .ok srcNode =>
        match mkdirAll fs (joinSegs [s.rootDir, dst]).dropLast with
        | (some e, fs₁) =>
            (some (.fsOp "failed to create dst directory" (goPathJoin [s.rootDir, dst]) e), fs₁)
        | (none, fs₁) =>
          match osCreate fs₁ (joinSegs [s.rootDir, dst]) with
          | .error e =>
              (some (.fsOp "failed to create dst file" (goPathJoin [s.rootDir, dst]) e), fs₁)
          | .ok fs₂ =>
            match srcNode with
            | .dir =>
                (some (.fsOp "failed to copy file" (goPathJoin [s.rootDir, src]) .isDir), fs₂)
            | .file d => (none, fsSet fs₂ (joinSegs [s.rootDir, dst]) (.file d))

/-- Delete deletes the object with the given name via os.Remove. -/
def LocalStorage.Delete (s : LocalStorage) (nm : String) (fs : Fs) :
    (Option GoError) × Fs :=
  match s.checkRootDir with
  | some c => (some (.config c), fs)
  | none =>
    if nm = "" then (some (.argRequired "name"), fs)
    else
      match osRemove fs (joinSegs [s.rootDir, nm]) with
      | .error e => (some (.fsOp "failed to delete file" (goPathJoin [s.rootDir, nm]) e), fs)
      | .ok fs₁ => (none, fs₁)

/-- Move moves an object: the destination parent directories are created
first, a rename is attempted, and only on rename failure does it fall back
to Copy followed by Delete of the source. -/
def LocalStorage.Move (s : LocalStorage) (src dst : String) (fs : Fs) :
    (Option GoError) × Fs :=
  match s.checkRootDir with
  | some c => (some (.config c), fs)
  | none =>
    if src = "" then (some (.argRequired "src"), fs)
    else if dst = "" then (some (.argRequired "dst"), fs)
    else
      match mkdirAll fs (joinSegs [s.rootDir, dst]).dropLast with
      | (some e, fs₁) =>
          (some (.fsOp "failed to create dst directory" (goPathJoin [s.rootDir, dst]) e), fs₁)
      | (none, fs₁) =>
        match osRename fs₁ (joinSegs [s.rootDir, src]) (joinSegs [s.rootDir, dst]) with
        | .ok fs₂ => (none, fs₂)
        | .error _ =>
          match s.Copy src dst fs₁ with
          | (some e, fs₂) => (some (.wrapMove "failed to copy file" e), fs₂)
          | (none, fs₂) =>
            match s.Delete src fs₂ with
            | (some e, fs₃) => (some (.wrapMove "failed to delete file" e), fs₃)
            | (none, fs₃) => (none, fs₃)

/-- DeleteAll deletes all objects under the given prefix via os.RemoveAll. -/
def LocalStorage.DeleteAll (s : LocalStorage) (pre : String) (fs : Fs) :
    (Option GoError) × Fs :=
  match s.checkRootDir with
  | some c => (some (.config c), fs)
  | none =>
    if pre = "" then (some (.argRequired "prefix"), fs)
    else (none, osRemoveAll fs (joinSegs [s.rootDir, pre]))

/-- An object stored in the cloud bucket. -/
structure GcsObject where
  data : Bytes
  contentType : String
  metadata : List (String × String)
  updated : Nat
deriving DecidableEq

/-- The bucket: association list from object keys to objects. -/
abbrev Bucket := List (String × GcsObject)

def bFind : Bucket → String → Option GcsObject
  | [], _ => none
  | (k, o) :: rest, s => if k = s then some o else bFind rest s

def bSet : Bucket → String → GcsObject → Bucket
  | [], s, o => [(s, o)]
  | (k, m) :: rest, s, o => if k = s then (s, o) :: rest else (k, m) :: bSet rest s o

def bErase : Bucket → String → Bucket
  | [], _ => []
  | (k, m) :: rest, s => if k = s then bErase rest s else (k, m) :: bErase rest s

/-- Whether `pre` is a string prefix of `k` (the Query filter of the cloud
object lister). -/
def strHasPre (pre k : String) : Bool :=
  List.isPrefixOf pre.data k.data

/-- Outcome of the cloud transport for one Put call: whether streaming bytes
into the upload writer succeeds, and whether the final Close commit
succeeds. The object becomes visible only when the commit succeeds. -/
structure GcsEnv where
  writeOk : Bool
  commitOk : Bool
deriving DecidableEq

/-- GCSStorage implements the Storage interface for Google Cloud Storage;
`client` records whether the injected client handle is non-nil. -/
structure GCSStorage where
  client : Bool
  bucketName : String
  name : String
deriving DecidableEq

def GCSStorage.checkClientAndBucket (s : GCSStorage) : Option ConfigErr :=
  if s.client = false then some .clientRequired
  else if s.bucketName = "" then some .bucketNameRequired
  else none

/-- Name returns the name (identifier) of this storage. -/
def GCSStorage.Name (s : GCSStorage) : String := s.name

/-- PathJoin joins multiple path elements according to the storage format. -/
def GCSStorage.PathJoin (s : GCSStorage) (elems : List String) : String :=
  goPathJoin elems

/-- Get returns the readable contents of the object with the given name. -/
def GCSStorage.Get (s : GCSStorage) (nm : String) (b : Bucket) : Except GoError Bytes :=
  match s.checkClientAndBucket with
  | some c => .error (.config c)
  | none =>
    if nm = "" then .error (.argRequired "name")
    else
      match bFind b nm with
      | none =>
          .error (.gcsOp "failed to open file" (goPathJoin [s.bucketName, nm]) .objectNotExist)
      | some o => .ok o.data

/-- The object a Put call stages for upload: ContentType and Metadata are
applied from the options only when non-empty, as in the writer setup. -/
def putObject (r : ByteReader) (opts : Option PutOptions) : GcsObject :=
  { data := r.data
  , contentType :=
      match opts with
      | some o => if o.ContentType ≠ "" then o.ContentType else ""
      | none => ""
  , metadata :=
      match opts with
      | some o => if o.Metadata.length > 0 then o.Metadata else []
      | none => []
  , updated := 0 }

/-- Put streams the reader into an upload writer. The writer is closed by a
deferred call whose error is discarded, and the upload commits only at that
close: the returned (bytes, error) pair therefore does not depend on
`env.commitOk`, while the bucket is updated only when the commit succeeds.
On a reader error the bytes copied before the failure are still committed
by the deferred close when the transport allows it. -/
def GCSStorage.Put (s : GCSStorage) (nm : String) (r : ByteReader)
    (opts : Option PutOptions) (env : GcsEnv) (b : Bucket) :
    (Nat × Option GoError) × Bucket :=
  match s.checkClientAndBucket with
  | some c => ((0, some (.config c)), b)
  | none =>
    if nm = "" then ((0, some (.argRequired "name")), b)
    else
      if env.writeOk = false then
        ((0, some (.gcsOp "failed to write file" (goPathJoin [s.bucketName, nm]) .ioFail)), b)
      else
        if r.readErr then
          ((0, some (.readerFail "failed to write file" (goPathJoin [s.bucketName, nm]))),
            if env.commitOk then bSet b nm (putObject r opts) else b)
        else
          ((r.data.length, none),
            if env.commitOk then bSet b nm (putObject r opts) else b)

/-- List pages through the objects whose key has the given prefix. The Name
field is built by joining the query prefix with the full object key, exactly
as the code does. -/
def GCSStorage.List (s : GCSStorage) (pre : String) (b : Bucket) :
    Except GoError (List ObjectInfo) :=
  match s.checkClientAndBucket with
  | some c => .error (.config c)
  | none =>
    if pre = "" then .error (.argRequired "prefix")
    else
      .ok ((b.filter (fun e => strHasPre pre e.1)).map (fun e =>
        { Name := goPathJoin [pre, e.1], Size := e.2.data.length,
          UpdatedAt := e.2.updated, Metadata := e.2.metadata }))

/-- Copy performs a server-side copy of the source object to the
destination key; it fails when the source is absent. -/
def GCSStorage.Copy (s : GCSStorage) (src dst : String) (b : Bucket) :
    (Option GoError) × Bucket :=
  match s.checkClientAndBucket with
  | some c => (some (.config c), b)
  | none =>
    if src = "" then (some (.argRequired "src"), b)
    else if dst = "" then (some (.argRequired "dst"), b)
    else
      match bFind b src with
      | none => (some (.gcsOp "failed to copy object" src .objectNotExist), b)
      | some o => (none, bSet b dst o)

/-- Delete deletes the object with the given name; it fails when the object
is absent. -/
def GCSStorage.Delete (s : GCSStorage) (nm : String) (b : Bucket) :
    (Option GoError) × Bucket :=
  match s.checkClientAndBucket with
  | some c => (some (.config c), b)
  | none =>
    if nm = "" then (some (.argRequired "name"), b)
    else
      match bFind b nm with
      | none =>
          (some (.gcsOp "failed to delete file" (goPathJoin [s.bucketName, nm]) .objectNotExist), b)
      | some _ => (none, bErase b nm)

/-- Move always performs Copy followed by Delete of the source (the cloud
backend has no rename). -/
def GCSStorage.Move (s : GCSStorage) (src dst : String) (b : Bucket) :
    (Option GoError) × Bucket :=
  match s.checkClientAndBucket with
  | some c => (some (.config c), b)
  | none =>
    if src = "" then (some (.argRequired "src"), b)
    else if dst = "" then (some (.argRequired "dst"), b)
    else
      match s.Copy src dst b with
      | (some e, b₁) => (some (.wrapMove "failed to copy file" e), b₁)
      | (none, b₁) =>
        match s.Delete src b₁ with
        | (some e, b₂) => (some (.wrapMove "failed to delete file" e), b₂)
        | (none, b₂) => (none, b₂)

/-- DeleteAll lists the objects under the prefix and deletes each of them in
turn. -/
def GCSStorage.DeleteAll (s : GCSStorage) (pre : String) (b : Bucket) :
    (Option GoError) × Bucket :=
  match s.checkClientAndBucket with
  | some c => (some (.config c), b)
  | none =>
    if pre = "" then (some (.argRequired "prefix"), b)
    else (none, (((b.filter (fun e => strHasPre pre e.1)).map (fun e => e.1)).foldl bErase b))

/-- The copy-then-delete fallback path of LocalStorage.Move, as its own
function, for stating how Move degrades when the rename fails. -/
def localCopyThenDelete (s : LocalStorage) (src dst : String) (fs : Fs) :
    (Option GoError) × Fs :=
  match s.Copy src dst fs with
  | (some e, fs₂) => (some (.wrapMove "failed to copy file" e), fs₂)
  | (none, fs₂) =>
    match s.Delete src fs₂ with
    | (some e, fs₃) => (some (.wrapMove "failed to delete file" e), fs₃)
    | (none, fs₃) => (none, fs₃)

/-- The copy-then-delete composition for the cloud backend. -/
def gcsCopyThenDelete (s : GCSStorage) (src dst : String) (b : Bucket) :
    (Option GoError) × Bucket :=
  match s.Copy src dst b with
  | (some e, b₁) => (some (.wrapMove "failed to copy file" e), b₁)
  | (none, b₁) =>
    match s.Delete src b₁ with
    | (some e, b₂) => (some (.wrapMove "failed to delete file" e), b₂)
    | (none, b₂) => (none, b₂)

deriving instance DecidableEq for Except

theorem checkRootDir_eq_none (s : LocalStorage) (h : s.rootDir ≠ "") :
    s.checkRootDir = none := by
  simp [LocalStorage.checkRootDir, h]

theorem checkClientAndBucket_eq_none (g : GCSStorage) (hc : g.client = true)
    (hb : g.bucketName ≠ "") : g.checkClientAndBucket = none := by
  simp [GCSStorage.checkClientAndBucket, hc, hb]

theorem fsFind_fsSet_self (fs : Fs) (p : FsPath) (n : FsNode) :
    fsFind (fsSet fs p n) p = some n := by
  induction fs with
  | nil => simp [fsSet, fsFind]
  | cons e rest ih =>
    obtain ⟨q, m⟩ := e
    by_cases h : q = p
    · simp [fsSet, fsFind, h]
    · simp [fsSet, fsFind, h, ih]

theorem fsFind_fsSet_ne (fs : Fs) (p q : FsPath) (n : FsNode) (h : q ≠ p) :
    fsFind (fsSet fs p n) q = fsFind fs q := by
  induction fs with
  | nil => simp [fsSet, fsFind, Ne.symm h]
  | cons e rest ih =>
    obtain ⟨k, m⟩ := e
    by_cases hk : k = p
    · subst hk
      simp [fsSet, fsFind, Ne.symm h]
    · simp [fsSet, fsFind, hk, ih]

theorem bFind_bSet_self (b : Bucket) (k : String) (o : GcsObject) :
    bFind (bSet b k o) k = some o := by
  induction b with
  | nil => simp [bSet, bFind]
  | cons e rest ih =>
    obtain ⟨q, m⟩ := e
    by_cases h : q = k
    · simp [bSet, bFind, h]
    · simp [bSet, bFind, h, ih]

/-- C1: for a configured backend, a non-empty name and a reader that delivers
its bytes without error, a successful Put (no error returned) followed by Get
of the same name yields a stream whose contents are exactly the bytes that
were put, and the reported byte count is their length - on both the local
and the cloud backend. For the cloud backend the transport is assumed
healthy (write and commit succeed); the commit slip is recorded at C3. -/
theorem claim1_put_get_roundtrip :
    (∀ (s : LocalStorage) (nm : String) (r : ByteReader) (opts : Option PutOptions)
        (fs fs' : Fs) (n : Nat),
      s.rootDir ≠ "" → nm ≠ "" → r.readErr = false →
      s.Put nm r opts fs = ((n, none), fs') →
      s.Get nm fs' = .ok (.file r.data) ∧ n = r.data.length) ∧
    (∀ (g : GCSStorage) (nm : String) (r : ByteReader) (opts : Option PutOptions)
        (env : GcsEnv) (b b' : Bucket) (n : Nat),
      g.client = true → g.bucketName ≠ "" → nm ≠ "" → r.readErr = false →
      env.writeOk = true → env.commitOk = true →
      g.Put nm r opts env b = ((n, none), b') →
      g.Get nm b' = .ok r.data ∧ n = r.data.length) := by
  constructor
  · intro s nm r opts fs fs' n hroot hnm hr hput
    simp only [LocalStorage.Put, checkRootDir_eq_none s hroot, if_neg hnm] at hput
    split at hput
    · simp at hput
    · rename_i fs₁ heq₁
      split at hput
      · simp at hput
      · rename_i fs₂ heq₂
        rw [hr] at hput
        simp only [Bool.false_eq_true, if_false] at hput
        simp only [Prod.mk.injEq, and_true, true_and] at hput
        obtain ⟨hn, hfs⟩ := hput
        subst hfs
        refine ⟨?_, hn.symm⟩
        simp only [LocalStorage.Get, checkRootDir_eq_none s hroot, if_neg hnm]
        simp [osOpen, fsFind_fsSet_self]
  · intro g nm r opts env b b' n hc hb hnm hr hw hcm hput
    simp only [GCSStorage.Put, checkClientAndBucket_eq_none g hc hb, if_neg hnm,
      hw, hr, hcm] at hput
    simp only [Bool.true_eq_false, if_false, Bool.false_eq_true, if_true,
      Prod.mk.injEq, and_true, true_and] at hput
    obtain ⟨hn, hbk⟩ := hput
    subst hbk
    refine ⟨?_, hn.symm⟩
    simp only [GCSStorage.Get, checkClientAndBucket_eq_none g hc hb, if_neg hnm]
    simp [bFind_bSet_self, putObject]

theorem claim1_put_get_roundtrip_witness :
    (LocalStorage.Get ⟨"/data", "local"⟩ "a/b.txt"
        [(["data"], .dir), (["data", "a"], .dir),
         (["data", "a", "b.txt"], .file [104, 101, 108, 108, 111])]
      = .ok (.file [104, 101, 108, 108, 111])
      ∧ (5 : Nat) = ([104, 101, 108, 108, 111] : Bytes).length) ∧
    (GCSStorage.Get ⟨true, "bkt", "gcs"⟩ "a/b.txt"
        [("a/b.txt", ⟨[104, 101, 108, 108, 111], "", [], 0⟩)]
      = .ok [104, 101, 108, 108, 111]
      ∧ (5 : Nat) = ([104, 101, 108, 108, 111] : Bytes).length) :=
  ⟨claim1_put_get_roundtrip.1 ⟨"/data", "local"⟩ "a/b.txt" ⟨[104, 101, 108, 108, 111], false⟩ none []
      [(["data"], .dir), (["data", "a"], .dir),
       (["data", "a", "b.txt"], .file [104, 101, 108, 108, 111])] 5
      (by decide) (by decide) rfl (by decide),
   claim1_put_get_roundtrip.2 ⟨true, "bkt", "gcs"⟩ "a/b.txt" ⟨[104, 101, 108, 108, 111], false⟩ none
      ⟨true, true⟩ [] [("a/b.txt", ⟨[104, 101, 108, 108, 111], "", [], 0⟩)] 5
      (by decide) (by decide) (by decide) rfl rfl rfl (by decide)⟩

/-- C2: the scenario Put "a/b.txt" (5 bytes) then List "a". The local backend
returns exactly one entry named "a/b.txt" of size 5, as claimed. The cloud
backend returns one entry of size 5 but named "a/a/b.txt": its List joins
the query prefix with the full object key, so the claim fails there - the
entry Name does not equal the logical name put. -/
theorem claim2_list_after_put_names :
    (LocalStorage.Put ⟨"/data", "local"⟩ "a/b.txt" ⟨[104, 101, 108, 108, 111], false⟩ none []
      = ((5, none),
         [(["data"], .dir), (["data", "a"], .dir),
          (["data", "a", "b.txt"], .file [104, 101, 108, 108, 111])])) ∧
    (LocalStorage.List ⟨"/data", "local"⟩ "a"
        [(["data"], .dir), (["data", "a"], .dir),
         (["data", "a", "b.txt"], .file [104, 101, 108, 108, 111])]
      = .ok [{ Name := "a/b.txt", Size := 5, UpdatedAt := 0, Metadata := [] }]) ∧
    (GCSStorage.Put ⟨true, "bkt", "gcs"⟩ "a/b.txt" ⟨[104, 101, 108, 108, 111], false⟩ none
        ⟨true, true⟩ []
      = ((5, none), [("a/b.txt", ⟨[104, 101, 108, 108, 111], "", [], 0⟩)])) ∧
    (GCSStorage.List ⟨true, "bkt", "gcs"⟩ "a"
        [("a/b.txt", ⟨[104, 101, 108, 108, 111], "", [], 0⟩)]
      = .ok [{ Name := "a/a/b.txt", Size := 5, UpdatedAt := 0, Metadata := [] }]) := by
  decide

/-- C3: counter-evidence for the cloud half of the claim. With a healthy
write stream but a failing Close commit, Put returns (3, no error) while the
bucket still lacks the object (a subsequent Get fails with a NotFound-style
error): the cloud backend does report success for an upload that was not
committed, because the deferred writer Close discards its error. -/
theorem claim3_uncommitted_upload_reported_success :
    (GCSStorage.Put ⟨true, "bkt", "gcs"⟩ "a" ⟨[1, 2, 3], false⟩ none ⟨true, false⟩ []
      = ((3, none), [])) ∧
    (GCSStorage.Get ⟨true, "bkt", "gcs"⟩ "a" []
      = .error (.gcsOp "failed to open file" "bkt/a" .objectNotExist)) := by
  decide

/-- C4: on a configured backend, every operation invoked with an empty
name, prefix, src or dst argument returns the corresponding
required-argument (InvalidArgument-style) error and leaves the storage
state unchanged (no I/O effect), on both backends. -/
theorem claim4_empty_args_rejected (s : LocalStorage) (g : GCSStorage) (fs : Fs) (b : Bucket)
    (r : ByteReader) (opts : Option PutOptions) (env : GcsEnv) (src : String)
    (hroot : s.rootDir ≠ "") (hc : g.client = true) (hb : g.bucketName ≠ "")
    (hsrc : src ≠ "") :
    s.Get "" fs = .error (.argRequired "name") ∧
    s.Put "" r opts fs = ((0, some (.argRequired "name")), fs) ∧
    s.List "" fs = .error (.argRequired "prefix") ∧
    s.Copy "" src fs = (some (.argRequired "src"), fs) ∧
    s.Copy src "" fs = (some (.argRequired "dst"), fs) ∧
    s.Move "" src fs = (some (.argRequired "src"), fs) ∧
    s.Move src "" fs = (some (.argRequired "dst"), fs) ∧
    s.Delete "" fs = (some (.argRequired "name"), fs) ∧
    s.DeleteAll "" fs = (some (.argRequired "prefix"), fs) ∧
    g.Get "" b = .error (.argRequired "name") ∧
    g.Put "" r opts env b = ((0, some (.argRequired "name")), b) ∧
    g.List "" b = .error (.argRequired "prefix") ∧
    g.Copy "" src b = (some (.argRequired "src"), b) ∧
    g.Copy src "" b = (some (.argRequired "dst"), b) ∧
    g.Move "" src b = (some (.argRequired "src"), b) ∧
    g.Move src "" b = (some (.argRequired "dst"), b) ∧
    g.Delete "" b = (some (.argRequired "name"), b) ∧
    g.DeleteAll "" b = (some (.argRequired "prefix"), b) := by
  simp [LocalStorage.Get, LocalStorage.Put, LocalStorage.List, LocalStorage.Copy,
    LocalStorage.Move, LocalStorage.Delete, LocalStorage.DeleteAll,
    GCSStorage.Get, GCSStorage.Put, GCSStorage.List, GCSStorage.Copy,
    GCSStorage.Move, GCSStorage.Delete, GCSStorage.DeleteAll,
    checkRootDir_eq_none s hroot, checkClientAndBucket_eq_none g hc hb, hsrc]

theorem claim4_empty_args_rejected_witness :
    LocalStorage.Get ⟨"/data", "l"⟩ "" [] = .error (.argRequired "name") ∧
    LocalStorage.Put ⟨"/data", "l"⟩ "" ⟨[], false⟩ none [] = ((0, some (.argRequired "name")), []) ∧
    LocalStorage.List ⟨"/data", "l"⟩ "" [] = .error (.argRequired "prefix") ∧
    LocalStorage.Copy ⟨"/data", "l"⟩ "" "x" [] = (some (.argRequired "src"), []) ∧
    LocalStorage.Copy ⟨"/data", "l"⟩ "x" "" [] = (some (.argRequired "dst"), []) ∧
    LocalStorage.Move ⟨"/data", "l"⟩ "" "x" [] = (some (.argRequired "src"), []) ∧
    LocalStorage.Move ⟨"/data", "l"⟩ "x" "" [] = (some (.argRequired "dst"), []) ∧
    LocalStorage.Delete ⟨"/data", "l"⟩ "" [] = (some (.argRequired "name"), []) ∧
    LocalStorage.DeleteAll ⟨"/data", "l"⟩ "" [] = (some (.argRequired "prefix"), []) ∧
    GCSStorage.Get ⟨true, "bkt", "g"⟩ "" [] = .error (.argRequired "name") ∧
    GCSStorage.Put ⟨true, "bkt", "g"⟩ "" ⟨[], false⟩ none ⟨true, true⟩ []
      = ((0, some (.argRequired "name")), []) ∧
    GCSStorage.List ⟨true, "bkt", "g"⟩ "" [] = .error (.argRequired "prefix") ∧
    GCSStorage.Copy ⟨true, "bkt", "g"⟩ "" "x" [] = (some (.argRequired "src"), []) ∧
    GCSStorage.Copy ⟨true, "bkt", "g"⟩ "x" "" [] = (some (.argRequired "dst"), []) ∧
    GCSStorage.Move ⟨true, "bkt", "g"⟩ "" "x" [] = (some (.argRequired "src"), []) ∧
    GCSStorage.Move ⟨true, "bkt", "g"⟩ "x" "" [] = (some (.argRequired "dst"), []) ∧
    GCSStorage.Delete ⟨true, "bkt", "g"⟩ "" [] = (some (.argRequired "name"), []) ∧
    GCSStorage.DeleteAll ⟨true, "bkt", "g"⟩ "" [] = (some (.argRequired "prefix"), []) :=
  claim4_empty_args_rejected ⟨"/data", "l"⟩ ⟨true, "bkt", "g"⟩ [] [] ⟨[], false⟩ none ⟨true, true⟩ "x"
    (by decide) rfl (by decide) (by decide)

/-- C5: the local Move first attempts a rename - when the rename succeeds
its result is the Move result and no copy or delete happens - and only on
rename failure does it perform Copy followed by Delete of the source; the
cloud Move always performs Copy followed by Delete of the source. -/
theorem claim5_move_rename_then_fallback :
    (∀ (s : LocalStorage) (src dst : String) (fs fs₁ fs₂ : Fs),
      s.rootDir ≠ "" → src ≠ "" → dst ≠ "" →
      mkdirAll fs (joinSegs [s.rootDir, dst]).dropLast = (none, fs₁) →
      osRename fs₁ (joinSegs [s.rootDir, src]) (joinSegs [s.rootDir, dst]) = .ok fs₂ →
      s.Move src dst fs = (none, fs₂)) ∧
    (∀ (s : LocalStorage) (src dst : String) (fs fs₁ : Fs) (e : FsErr),
      s.rootDir ≠ "" → src ≠ "" → dst ≠ "" →
      mkdirAll fs (joinSegs [s.rootDir, dst]).dropLast = (none, fs₁) →
      osRename fs₁ (joinSegs [s.rootDir, src]) (joinSegs [s.rootDir, dst]) = .error e →
      s.Move src dst fs = localCopyThenDelete s src dst fs₁) ∧
    (∀ (g : GCSStorage) (src dst : String) (b : Bucket),
      g.client = true → g.bucketName ≠ "" → src ≠ "" → dst ≠ "" →
      g.Move src dst b = gcsCopyThenDelete g src dst b) := by
  refine ⟨?_, ?_, ?_⟩
  · intro s src dst fs fs₁ fs₂ hroot hsrc hdst hmk hrn
    simp only [LocalStorage.Move, checkRootDir_eq_none s hroot, if_neg hsrc, if_neg hdst,
      hmk, hrn]
  · intro s src dst fs fs₁ e hroot hsrc hdst hmk hrn
    simp only [LocalStorage.Move, localCopyThenDelete, checkRootDir_eq_none s hroot,
      if_neg hsrc, if_neg hdst, hmk, hrn]
  · intro g src dst b hc hb hsrc hdst
    simp only [GCSStorage.Move, gcsCopyThenDelete, checkClientAndBucket_eq_none g hc hb,
      if_neg hsrc, if_neg hdst]

theorem claim5_move_rename_then_fallback_witness :
    (LocalStorage.Move ⟨"/data", "l"⟩ "a/b.txt" "c/d.txt"
        [(["data"], .dir), (["data", "a"], .dir),
         (["data", "a", "b.txt"], .file [104, 101, 108, 108, 111])]
      = (none,
         [(["data"], .dir), (["data", "a"], .dir),
          (["data", "c", "d.txt"], .file [104, 101, 108, 108, 111]),
          (["data", "c"], .dir)])) ∧
    (LocalStorage.Move ⟨"/data", "l"⟩ "a" "c/d" []
      = localCopyThenDelete ⟨"/data", "l"⟩ "a" "c/d" [(["data"], .dir), (["data", "c"], .dir)]) ∧
    (GCSStorage.Move ⟨true, "bkt", "g"⟩ "x" "y" [("x", ⟨[1], "", [], 0⟩)]
      = gcsCopyThenDelete ⟨true, "bkt", "g"⟩ "x" "y" [("x", ⟨[1], "", [], 0⟩)]) :=
  ⟨claim5_move_rename_then_fallback.1 ⟨"/data", "l"⟩ "a/b.txt" "c/d.txt"
      [(["data"], .dir), (["data", "a"], .dir),
       (["data", "a", "b.txt"], .file [104, 101, 108, 108, 111])]
      [(["data"], .dir), (["data", "a"], .dir),
       (["data", "a", "b.txt"], .file [104, 101, 108, 108, 111]), (["data", "c"], .dir)]
      [(["data"], .dir), (["data", "a"], .dir),
       (["data", "c", "d.txt"], .file [104, 101, 108, 108, 111]), (["data", "c"], .dir)]
      (by decide) (by decide) (by decide) (by decide) (by decide),
   claim5_move_rename_then_fallback.2.1 ⟨"/data", "l"⟩ "a" "c/d" [] [(["data"], .dir), (["data", "c"], .dir)]
      .notExist (by decide) (by decide) (by decide) (by decide) (by decide),
   claim5_move_rename_then_fallback.2.2 ⟨true, "bkt", "g"⟩ "x" "y" [("x", ⟨[1], "", [], 0⟩)]
      rfl (by decide) (by decide) (by decide)⟩

/-- C6: DeleteAll is idempotent on both backends: with a configured backend
and non-empty prefix, a second DeleteAll right after a first one succeeds
(returns no error), and when nothing matches the prefix DeleteAll succeeds
as a no-op leaving the state unchanged. -/
theorem claim6_deleteall_idempotent (s : LocalStorage) (g : GCSStorage) (fs : Fs) (b : Bucket) (pre : String)
    (hroot : s.rootDir ≠ "") (hc : g.client = true) (hb : g.bucketName ≠ "")
    (hpre : pre ≠ "") :
    (s.DeleteAll pre ((s.DeleteAll pre fs).2)).1 = none ∧
    ((∀ e ∈ fs, isUnder (joinSegs [s.rootDir, pre]) e.1 = false) →
      s.DeleteAll pre fs = (none, fs)) ∧
    (g.DeleteAll pre ((g.DeleteAll pre b).2)).1 = none ∧
    ((∀ e ∈ b, strHasPre pre e.1 = false) → g.DeleteAll pre b = (none, b)) := by
  refine ⟨?_, ?_, ?_, ?_⟩
  · simp [LocalStorage.DeleteAll, checkRootDir_eq_none s hroot, if_neg hpre]
  · intro h
    have hf : osRemoveAll fs (joinSegs [s.rootDir, pre]) = fs := by
      unfold osRemoveAll
      exact List.filter_eq_self.mpr (fun e he => by simp [h e he])
    simp [LocalStorage.DeleteAll, checkRootDir_eq_none s hroot, if_neg hpre, hf]
  · simp [GCSStorage.DeleteAll, checkClientAndBucket_eq_none g hc hb, if_neg hpre]
  · intro h
    have hf : b.filter (fun e => strHasPre pre e.1) = [] :=
      List.filter_eq_nil.mpr (fun e he => by simp [h e he])
    simp [GCSStorage.DeleteAll, checkClientAndBucket_eq_none g hc hb, if_neg hpre, hf]

/-- C7: for a non-empty prefix whose path (local) or key namespace (cloud)
does not exist, List returns an empty sequence and no error, on both
backends. -/
theorem claim7_list_missing_empty (s : LocalStorage) (g : GCSStorage) (fs : Fs) (b : Bucket) (pre : String)
    (hroot : s.rootDir ≠ "") (hc : g.client = true) (hb : g.bucketName ≠ "")
    (hpre : pre ≠ "") :
    (fsFind fs (joinSegs [s.rootDir, pre]) = none → s.List pre fs = .ok []) ∧
    ((∀ e ∈ b, strHasPre pre e.1 = false) → g.List pre b = .ok []) := by
  constructor
  · intro habs
    simp [LocalStorage.List, checkRootDir_eq_none s hroot, if_neg hpre, osReadDir, habs]
  · intro h
    have hf : b.filter (fun e => strHasPre pre e.1) = [] :=
      List.filter_eq_nil.mpr (fun e he => by simp [h e he])
    simp [GCSStorage.List, checkClientAndBucket_eq_none g hc hb, if_neg hpre, hf]

theorem claim6_deleteall_idempotent_witness :
    (LocalStorage.DeleteAll ⟨"/data", "l"⟩ "x"
        ((LocalStorage.DeleteAll ⟨"/data", "l"⟩ "x"
          [(["data"], .dir), (["data", "x"], .file [1])]).2)).1 = none ∧
    ((∀ e ∈ ([(["data"], FsNode.dir), (["data", "x"], FsNode.file [1])] : Fs),
        isUnder (joinSegs ["/data", "x"]) e.1 = false) →
      LocalStorage.DeleteAll ⟨"/data", "l"⟩ "x" [(["data"], .dir), (["data", "x"], .file [1])]
        = (none, [(["data"], .dir), (["data", "x"], .file [1])])) ∧
    (GCSStorage.DeleteAll ⟨true, "bkt", "g"⟩ "x"
        ((GCSStorage.DeleteAll ⟨true, "bkt", "g"⟩ "x" [("x/y", ⟨[1], "", [], 0⟩)]).2)).1 = none ∧
    ((∀ e ∈ ([("x/y", (⟨[1], "", [], 0⟩ : GcsObject))] : Bucket), strHasPre "x" e.1 = false) →
      GCSStorage.DeleteAll ⟨true, "bkt", "g"⟩ "x" [("x/y", ⟨[1], "", [], 0⟩)]
        = (none, [("x/y", ⟨[1], "", [], 0⟩)])) :=
  claim6_deleteall_idempotent ⟨"/data", "l"⟩ ⟨true, "bkt", "g"⟩
    [(["data"], .dir), (["data", "x"], .file [1])] [("x/y", ⟨[1], "", [], 0⟩)] "x"
    (by decide) rfl (by decide) (by decide)

theorem claim7_list_missing_empty_witness :
    (fsFind [(["data"], FsNode.dir)] (joinSegs ["/data", "missing"]) = none →
      LocalStorage.List ⟨"/data", "l"⟩ "missing" [(["data"], .dir)] = .ok []) ∧
    ((∀ e ∈ ([("other", (⟨[1], "", [], 0⟩ : GcsObject))] : Bucket),
        strHasPre "missing" e.1 = false) →
      GCSStorage.List ⟨true, "bkt", "g"⟩ "missing" [("other", ⟨[1], "", [], 0⟩)] = .ok []) :=
  claim7_list_missing_empty ⟨"/data", "l"⟩ ⟨true, "bkt", "g"⟩ [(["data"], .dir)]
    [("other", ⟨[1], "", [], 0⟩)] "missing" (by decide) rfl (by decide) (by decide)

/-- C10: local Delete succeeds on a file and also on an empty directory
(removing it), and returns an error exactly when the underlying removal
fails: when the path is absent, or when it is a non-empty directory. -/
theorem claim10_delete_file_or_empty_dir (s : LocalStorage) (nm : String) (fs : Fs) (full : FsPath) (d : Bytes)
    (hroot : s.rootDir ≠ "") (hnm : nm ≠ "") (hfull : full = joinSegs [s.rootDir, nm]) :
    (fsFind fs full = some (.file d) → s.Delete nm fs = (none, fsErase fs full)) ∧
    (fsFind fs full = some .dir → hasChild fs full = false →
      s.Delete nm fs = (none, fsErase fs full)) ∧
    (fsFind fs full = none →
      s.Delete nm fs
        = (some (.fsOp "failed to delete file" (goPathJoin [s.rootDir, nm]) .notExist), fs)) ∧
    (fsFind fs full = some .dir → hasChild fs full = true →
      s.Delete nm fs
        = (some (.fsOp "failed to delete file" (goPathJoin [s.rootDir, nm]) .notEmpty), fs)) := by
  subst hfull
  refine ⟨?_, ?_, ?_, ?_⟩
  · intro h
    simp [LocalStorage.Delete, checkRootDir_eq_none s hroot, if_neg hnm, osRemove, h]
  · intro h hc
    simp [LocalStorage.Delete, checkRootDir_eq_none s hroot, if_neg hnm, osRemove, h, hc]
  · intro h
    simp [LocalStorage.Delete, checkRootDir_eq_none s hroot, if_neg hnm, osRemove, h]
  · intro h hc
    simp [LocalStorage.Delete, checkRootDir_eq_none s hroot, if_neg hnm, osRemove, h, hc]

theorem claim10_delete_file_or_empty_dir_witness :
    (fsFind [(["data", "f"], FsNode.file [1])] (joinSegs ["/data", "f"]) = some (.file [1]) →
      LocalStorage.Delete ⟨"/data", "l"⟩ "f" [(["data", "f"], .file [1])]
        = (none, fsErase [(["data", "f"], .file [1])] (joinSegs ["/data", "f"]))) ∧
    (fsFind [(["data", "f"], FsNode.file [1])] (joinSegs ["/data", "f"]) = some .dir →
      hasChild [(["data", "f"], FsNode.file [1])] (joinSegs ["/data", "f"]) = false →
      LocalStorage.Delete ⟨"/data", "l"⟩ "f" [(["data", "f"], .file [1])]
        = (none, fsErase [(["data", "f"], .file [1])] (joinSegs ["/data", "f"]))) ∧
    (fsFind [(["data", "f"], FsNode.file [1])] (joinSegs ["/data", "f"]) = none →
      LocalStorage.Delete ⟨"/data", "l"⟩ "f" [(["data", "f"], .file [1])]
        = (some (.fsOp "failed to delete file" (goPathJoin ["/data", "f"]) .notExist),
           [(["data", "f"], .file [1])])) ∧
    (fsFind [(["data", "f"], FsNode.file [1])] (joinSegs ["/data", "f"]) = some .dir →
      hasChild [(["data", "f"], FsNode.file [1])] (joinSegs ["/data", "f"]) = true →
      LocalStorage.Delete ⟨"/data", "l"⟩ "f" [(["data", "f"], .file [1])]
        = (some (.fsOp "failed to delete file" (goPathJoin ["/data", "f"]) .notEmpty),
           [(["data", "f"], .file [1])])) :=
  claim10_delete_file_or_empty_dir ⟨"/data", "l"⟩ "f" [(["data", "f"], .file [1])] (joinSegs ["/data", "f"]) [1]
    (by decide) (by decide) rfl

theorem mkdirAllFrom_pres_creates :
    ∀ (segs : List String) (fs fs' : Fs) (base : FsPath),
      mkdirAllFrom fs base segs = (none, fs') →
      (∀ q, fsFind fs q = some .dir → fsFind fs' q = some .dir) ∧
      (∀ k, 1 ≤ k → k ≤ segs.length → fsFind fs' (base ++ segs.take k) = some .dir) := by
  intro segs
  induction segs with
  | nil =>
    intro fs fs' base h
    simp [mkdirAllFrom] at h
    subst h
    exact ⟨fun q hq => hq, fun k h1 h2 => by simp at h2; omega⟩
  | cons seg rest ih =>
    intro fs fs' base h
    rw [mkdirAllFrom] at h
    split at h
    · simp at h
    · rename_i heq
      obtain ⟨pres, made⟩ := ih fs fs' (base ++ [seg]) h
      refine ⟨pres, ?_⟩
      intro k h1 h2
      cases k with
      | zero => omega
      | succ j =>
        rw [List.take_succ_cons, List.append_cons]
        cases j with
        | zero => simpa using pres _ heq
        | succ i =>
          refine made (i + 1) (by omega) ?_
          simp at h2
          omega
    · rename_i heq
      obtain ⟨pres, made⟩ := ih (fsSet fs (base ++ [seg]) .dir) fs' (base ++ [seg]) h
      have hself : fsFind fs' (base ++ [seg]) = some .dir :=
        pres _ (fsFind_fsSet_self fs (base ++ [seg]) .dir)
      refine ⟨?_, ?_⟩
      · intro q hq
        refine pres q ?_
        rw [fsFind_fsSet_ne]
        · exact hq
        · intro hqe
          rw [hqe, heq] at hq
          exact Option.noConfusion hq
      · intro k h1 h2
        cases k with
        | zero => omega
        | succ j =>
          rw [List.take_succ_cons, List.append_cons]
          cases j with
          | zero => simpa using hself
          | succ i =>
            refine made (i + 1) (by omega) ?_
            simp at h2
            omega

theorem mkdirAll_creates (fs fs' : Fs) (p : FsPath) (h : mkdirAll fs p = (none, fs')) :
    ∀ k, 1 ≤ k → k ≤ p.length → fsFind fs' (p.take k) = some .dir := by
  intro k h1 h2
  have := (mkdirAllFrom_pres_creates p fs fs' [] h).2 k h1 h2
  simpa using this

/-- C9: local Move creates the destination parent directories before the
rename and before any check that the source exists: when the source is
absent Move fails (wrapping the failed source open of the Copy fallback),
yet the filesystem it leaves behind contains every level of the destination
parent path as a directory - the filesystem is not unchanged on error. -/
theorem claim9_move_dirs_persist_on_missing_src (s : LocalStorage) (src dst : String) (fs fs₁ : Fs)
    (hroot : s.rootDir ≠ "") (hsrc : src ≠ "") (hdst : dst ≠ "")
    (hmk : mkdirAll fs (joinSegs [s.rootDir, dst]).dropLast = (none, fs₁))
    (habs : fsFind fs₁ (joinSegs [s.rootDir, src]) = none) :
    s.Move src dst fs
      = (some (.wrapMove "failed to copy file"
          (.fsOp "failed to open src file" (goPathJoin [s.rootDir, src]) .notExist)), fs₁) ∧
    ∀ k, 1 ≤ k → k ≤ (joinSegs [s.rootDir, dst]).dropLast.length →
      fsFind fs₁ ((joinSegs [s.rootDir, dst]).dropLast.take k) = some .dir := by
  constructor
  · have hrn : osRename fs₁ (joinSegs [s.rootDir, src]) (joinSegs [s.rootDir, dst])
        = .error .notExist := by
      simp [osRename, habs]
    have hcp : s.Copy src dst fs₁
        = (some (.fsOp "failed to open src file" (goPathJoin [s.rootDir, src]) .notExist),
           fs₁) := by
      simp [LocalStorage.Copy, checkRootDir_eq_none s hroot, if_neg hsrc, if_neg hdst,
        osOpen, habs]
    simp only [LocalStorage.Move, checkRootDir_eq_none s hroot, if_neg hsrc, if_neg hdst,
      hmk, hrn, hcp]
  · exact mkdirAll_creates fs fs₁ _ hmk

theorem claim9_move_dirs_persist_on_missing_src_witness :
    (LocalStorage.Move ⟨"/data", "l"⟩ "a" "c/d" []
      = (some (.wrapMove "failed to copy file"
          (.fsOp "failed to open src file" (goPathJoin ["/data", "a"]) .notExist)),
         [(["data"], .dir), (["data", "c"], .dir)])) ∧
    ∀ k, 1 ≤ k → k ≤ (joinSegs ["/data", "c/d"]).dropLast.length →
      fsFind [(["data"], FsNode.dir), (["data", "c"], FsNode.dir)]
        ((joinSegs ["/data", "c/d"]).dropLast.take k) = some .dir :=
  claim9_move_dirs_persist_on_missing_src ⟨"/data", "l"⟩ "a" "c/d" [] [(["data"], .dir), (["data", "c"], .dir)]
    (by decide) (by decide) (by decide) (by decide) (by decide)

theorem mem_insertByName (e a : RawEntry) (l : List RawEntry) :
    e ∈ insertByName a l ↔ e = a ∨ e ∈ l := by
  induction l with
  | nil => simp [insertByName]
  | cons x xs ih =>
    rw [insertByName]
    split
    · simp [List.mem_cons]
    · simp [List.mem_cons, ih]
      tauto

theorem mem_sortByName (e : RawEntry) (l : List RawEntry) :
    e ∈ sortByName l ↔ e ∈ l := by
  induction l with
  | nil => simp [sortByName]
  | cons x xs ih => simp [sortByName, mem_insertByName, ih]

theorem exists_snoc_of_isUnder :
    ∀ (p q : FsPath), isUnder p q = true → q.length = p.length + 1 →
      ∃ seg, q = p ++ [seg] := by
  intro p
  induction p with
  | nil =>
    intro q h hl
    cases q with
    | nil => simp at hl
    | cons a q' =>
      simp at hl
      exact ⟨a, by simp [hl]⟩
  | cons x p' ih =>
    intro q h hl
    cases q with
    | nil => simp [isUnder] at h
    | cons y q' =>
      rw [isUnder] at h
      split at h
      · rename_i hxy
        subst hxy
        simp at hl
        obtain ⟨seg, hs⟩ := ih q' h (by omega)
        exact ⟨seg, by simp [hs]⟩
      · simp at h

/-- The per-entry translation applied by the List loop. -/
def listEntryObj (pre : String) (f : RawEntry) : Option ObjectInfo :=
  if f.isDir then none
  else
    match f.info with
    | none => none
    | some i =>
      some { Name := goPathJoin [pre, f.name], Size := i.size,
             UpdatedAt := i.modTime, Metadata := [] }

/-- C8: the local List loop maps directory entries through a single
filterMap: every entry that is itself a directory and every entry whose
metadata read failed is omitted without an error, and every remaining entry
appears in the result; moreover every object List returns comes from an
immediate child of the prefix directory (one extra path segment - List does
not descend into subdirectories). -/
theorem claim8_list_immediate_and_skips :
    (∀ (pre : String) (files : List RawEntry),
      localListLoop pre files = files.filterMap (listEntryObj pre)) ∧
    (∀ (pre : String) (files : List RawEntry) (f : RawEntry) (i : FileInfo),
      f ∈ files → f.isDir = false → f.info = some i →
      ({ Name := goPathJoin [pre, f.name], Size := i.size, UpdatedAt := i.modTime,
         Metadata := [] } : ObjectInfo) ∈ localListLoop pre files) ∧
    (∀ (s : LocalStorage) (pre : String) (fs : Fs) (objs : List ObjectInfo),
      s.List pre fs = .ok objs →
      ∀ o ∈ objs, ∃ seg n, (joinSegs [s.rootDir, pre] ++ [seg], n) ∈ fs ∧
        o.Name = goPathJoin [pre, seg]) := by
  have hloop : ∀ (pre : String) (files : List RawEntry),
      localListLoop pre files = files.filterMap (listEntryObj pre) := by
    intro pre files
    induction files with
    | nil => simp [localListLoop]
    | cons f rest ih =>
      by_cases hd : f.isDir
      · simp [localListLoop, listEntryObj, hd, ih]
      · cases hinfo : f.info with
        | none => simp [localListLoop, listEntryObj, hd, hinfo, ih]
        | some i => simp [localListLoop, listEntryObj, hd, hinfo, ih]
  refine ⟨hloop, ?_, ?_⟩
  · intro pre files f i hf hdir hinfo
    rw [hloop, List.mem_filterMap]
    exact ⟨f, hf, by simp [listEntryObj, hdir, hinfo]⟩
  · intro s pre fs objs hok o ho
    simp only [LocalStorage.List] at hok
    split at hok
    · simp at hok
    · split at hok
      · simp at hok
      · split at hok
        · simp only [Except.ok.injEq] at hok
          subst hok
          simp at ho
        · simp at hok
        · rename_i files heq
          simp only [Except.ok.injEq] at hok
          subst hok
          unfold osReadDir at heq
          split at heq
          · simp only [Except.ok.injEq] at heq
            subst heq
            rw [hloop, List.mem_filterMap] at ho
            obtain ⟨f, hfmem, hfeq⟩ := ho
            rw [mem_sortByName] at hfmem
            unfold childrenOf at hfmem
            rw [List.mem_filterMap] at hfmem
            obtain ⟨e, hefs, hcond⟩ := hfmem
            split at hcond
            · rename_i hc
              simp only [Bool.and_eq_true, decide_eq_true_eq] at hc
              obtain ⟨hc1, hc2⟩ := hc
              obtain ⟨seg, hseg⟩ := exists_snoc_of_isUnder _ _ hc1 hc2
              simp only [Option.some.injEq] at hcond
              refine ⟨seg, e.2, ?_, ?_⟩
              · rw [← hseg]
                exact hefs
              · have hname : (e.1.getLastD "") = seg := by
                  rw [hseg]
                  simp
                rw [hname] at hcond
                cases hn : e.2 with
                | dir =>
                  rw [hn] at hcond
                  rw [← hcond] at hfeq
                  simp [listEntryObj, rawOf] at hfeq
                | file d =>
                  rw [hn] at hcond
                  rw [← hcond] at hfeq
                  simp only [listEntryObj, rawOf, if_false, Bool.false_eq_true,
                    Option.some.injEq] at hfeq
                  rw [← hfeq]
            · exact Option.noConfusion hcond
          · simp at heq
          · simp at heq

theorem claim8_list_immediate_and_skips_witness :
    (localListLoop "a" [⟨"b.txt", false, some ⟨5, 0⟩⟩]
      = List.filterMap (listEntryObj "a") [⟨"b.txt", false, some ⟨5, 0⟩⟩]) ∧
    (({ Name := goPathJoin ["a", "b.txt"], Size := 5, UpdatedAt := 0,
        Metadata := [] } : ObjectInfo)
      ∈ localListLoop "a" [⟨"b.txt", false, some ⟨5, 0⟩⟩]) ∧
    (∀ o ∈ ([{ Name := "a/b.txt", Size := 5, UpdatedAt := 0,
               Metadata := [] }] : List ObjectInfo),
      ∃ seg n,
        (joinSegs ["/data", "a"] ++ [seg], n) ∈
          ([(["data"], .dir), (["data", "a"], .dir),
            (["data", "a", "b.txt"], .file [104, 101, 108, 108, 111])] : Fs) ∧
        o.Name = goPathJoin ["a", seg]) :=
  ⟨claim8_list_immediate_and_skips.1 "a" [⟨"b.txt", false, some ⟨5, 0⟩⟩],
   claim8_list_immediate_and_skips.2.1 "a" [⟨"b.txt", false, some ⟨5, 0⟩⟩] ⟨"b.txt", false, some ⟨5, 0⟩⟩ ⟨5, 0⟩
     (by decide) rfl rfl,
   claim8_list_immediate_and_skips.2.2 ⟨"/data", "l"⟩ "a"
     [(["data"], .dir), (["data", "a"], .dir),
      (["data", "a", "b.txt"], .file [104, 101, 108, 108, 111])]
     [{ Name := "a/b.txt", Size := 5, UpdatedAt := 0, Metadata := [] }] (by decide)⟩
